import Mathlib

/-!
Shallow embedding of `src/functions/proxy.ts`, a stateless HTTP gateway that
proxies a music-metadata API and allow-listed audio CDN hosts, and proofs of
the specification's claims about it.

Conventions of the embedding:
  * JS strings are Lean `String`; `null`-able strings (`searchParams.get`,
    `headers.get`) are `Option String`.
  * JS string truthiness (`if (s)`) is `strTruthy`: `null` and `""` are falsy.
  * `String.prototype.toLowerCase` is `lower` (ASCII case folding; every
    string it is applied to — header names and hostnames — is ASCII).
  * A JS `Headers` object is a `List (String × String)` whose keys are kept
    lowercase by `hset`, mirroring the name normalization `Headers` performs.
  * `new URL(raw)` is a platform primitive, not repository code; its outcome
    is modelled as an `Option ParsedUrl` input (`none` = the constructor
    threw, i.e. the string is not a well-formed absolute URL).
  * `fetch` is a platform primitive; its outcome is an
    `Except String UpstreamResponse` input (`.error` = the promise rejected
    at the transport level, so no upstream response exists).
  * WebCrypto `HMAC/SHA-1` (`crypto.subtle.importKey`/`sign`) is implemented
    concretely below (FIPS 180-4 SHA-1 and RFC 2104 HMAC over byte lists,
    words as `Nat` reduced mod 2^32).
-/

namespace MusicProxy

/-! ### JavaScript string primitives -/

/-- ASCII case folding of one character, as `toLowerCase` acts on ASCII. -/
def lowerChar (c : Char) : Char :=
  if 65 ≤ c.toNat && c.toNat ≤ 90 then Char.ofNat (c.toNat + 32) else c

/-- `s.toLowerCase()` restricted to ASCII strings. -/
def lower (s : String) : String := String.mk (s.data.map lowerChar)

/-- Substring search over character lists: does `pat` occur contiguously? -/
def listContainsSub (pat : List Char) : List Char → Bool
  | [] => pat.isPrefixOf []
  | c :: rest => pat.isPrefixOf (c :: rest) || listContainsSub pat rest

/-- `s.includes(pat)` for JS strings (contiguous substring containment). -/
def strIncludes (s pat : String) : Bool := listContainsSub pat.data s.data

/-- Does `s` end with the given suffix (used to evaluate the anchored regex). -/
def strEndsWith (s suffix : String) : Bool := suffix.data.isSuffixOf s.data

/-- JS truthiness of a nullable string: `null` and `""` are falsy. -/
def strTruthy : Option String → Bool
  | none => false
  | some s => s != ""

/-- JS `o || d` on a nullable string: the default replaces `null` and `""`. -/
def orDefault (o : Option String) (d : String) : String :=
  match o with
  | none => d
  | some s => if s = "" then d else s

/-! ### Headers model

A `Headers` object is a list of (lowercased name, value) pairs; `set`
replaces any existing entry for the (case-insensitively matched) name. -/

/-- `headers.set(k, v)`: drop entries whose name matches `k`, append the new
entry under the lowercased name. -/
def hset (hs : List (String × String)) (k v : String) : List (String × String) :=
  hs.filter (fun p => p.1 != lower k) ++ [(lower k, v)]

/-- `headers.has(k)` (case-insensitive). -/
def hhas (hs : List (String × String)) (k : String) : Bool :=
  hs.any (fun p => p.1 == lower k)

/-- `params.find` helper: the value attached to key `k`, if any. -/
def getParam (ps : List (String × String)) (k : String) : Option String :=
  (ps.find? (fun p => p.1 == k)).map (fun p => p.2)

/-! ### Constants of `proxy.ts` (lines 1–3) -/

def API_BASE_URL : String := "https://api.i-meto.com/meting/api"

def SAFE_RESPONSE_HEADERS : List String :=
  ["content-type", "cache-control", "accept-ranges", "content-length",
   "content-range", "etag", "last-modified", "expires"]

/-- `KUWO_HOST_PATTERN.test(hostname)` where the pattern is the anchored,
case-insensitive regex matching `kuwo.cn` itself or any subdomain of it
(the `(^|\.)` alternative anchored at end of string). -/
def kuwoHostTest (hostname : String) : Bool :=
  let h := lower hostname
  h == "kuwo.cn" || strEndsWith h ".kuwo.cn"

/-! ### Audio Target Validator (lines 33–63) -/

/-- `isAllowedAudioHost` (lines 33–44): empty hostname is falsy and rejected;
otherwise the anchored kuwo test or substring containment of one of five
platform domains. -/
def isAllowedAudioHost (hostname : String) : Bool :=
  if hostname == "" then false
  else
    kuwoHostTest hostname ||
    strIncludes hostname "music.126.net" ||
    strIncludes hostname "qq.com" ||
    strIncludes hostname "myqcloud.com" ||
    strIncludes hostname "kugou.com" ||
    strIncludes hostname "migu.cn"

/-- The fields of a parsed `URL` object the gateway inspects or rewrites.
`rest` abstracts the remainder (path, query, ...), which the code never
examines. -/
structure ParsedUrl where
  protocol : String
  hostname : String
  rest : String
deriving DecidableEq

/-- `normalizeAudioUrl` (lines 46–63). The `Option ParsedUrl` argument is the
outcome of `new URL(rawUrl)` (`none` = the `try` block threw). -/
def normalizeAudioUrl (parsed : Option ParsedUrl) : Option ParsedUrl :=
  match parsed with
  | none => none
  | some p =>
    if !isAllowedAudioHost p.hostname then none
    else if p.protocol != "http:" && p.protocol != "https:" then none
    else if kuwoHostTest p.hostname then some { p with protocol := "http:" }
    else some p

/-! ### Header Filter (lines 5–19 and 90–113) -/

/-- One step of the header-copy loops: keep the entry iff its lowercased name
is on the allow-list, storing it via `Headers.set`. -/
def filterHeadersStep (allow : List String) (acc : List (String × String))
    (kv : String × String) : List (String × String) :=
  if allow.contains (lower kv.1) then hset acc kv.1 kv.2 else acc

/-- The `for (const [key, value] of entries)` copy loop shared by
`createCorsHeaders` (line 8–12) and `proxyAudio` (lines 104–108), starting
from a fresh `Headers` object. -/
def filterHeaders (allow : List String) (entries : List (String × String)) :
    List (String × String) :=
  entries.foldl (filterHeadersStep allow) []

/-- `createCorsHeaders` (lines 5–19): filter by `SAFE_RESPONSE_HEADERS`,
default `Cache-Control` to `no-store`, force `Access-Control-Allow-Origin`. -/
def createCorsHeaders (init : Option (List (String × String))) :
    List (String × String) :=
  let headers := match init with
    | none => []
    | some entries => filterHeaders SAFE_RESPONSE_HEADERS entries
  let headers := if hhas headers "Cache-Control" then headers
    else hset headers "Cache-Control" "no-store"
  hset headers "Access-Control-Allow-Origin" "*"

/-- The `allowedHeaders` list local to `proxyAudio` (lines 93–102). -/
def audioAllowedHeaders : List String :=
  ["content-type", "content-length", "content-range", "accept-ranges",
   "cache-control", "expires", "last-modified", "etag"]

/-- Response-header construction of `proxyAudio` (lines 90–113): filter by
`allowedHeaders`, then force the three CORS headers. No `Cache-Control`
defaulting happens on this path. -/
def buildAudioResponseHeaders (upstreamHeaders : List (String × String)) :
    List (String × String) :=
  let headers := filterHeaders audioAllowedHeaders upstreamHeaders
  let headers := hset headers "Access-Control-Allow-Origin" "*"
  let headers := hset headers "Access-Control-Allow-Methods" "GET, HEAD, OPTIONS"
  hset headers "Access-Control-Expose-Headers"
    "Content-Range, Content-Length, Accept-Ranges"

/-! ### Audio Proxy (lines 65–120) -/

/-- What `proxyAudio` decides before any I/O: either reject (400, no fetch)
or fetch the normalized URL with the built request headers. -/
inductive AudioStep where
  | reject
  | fetchUpstream (u : ParsedUrl) (requestHeaders : List (String × String))
deriving DecidableEq

/-- Lines 65–87 of `proxyAudio`: validation and outbound-request assembly.
`ua` and `range` are `request.headers.get("User-Agent")` / `get("Range")`;
note `??` (line 74) keeps an empty UA while `if (rangeHeader)` (line 83)
drops an empty Range value. -/
def proxyAudioStep (parsedTarget : Option ParsedUrl) (ua range : Option String) :
    AudioStep :=
  match normalizeAudioUrl parsedTarget with
  | none => .reject
  | some u =>
    let hdrs := [("User-Agent", ua.getD "Mozilla/5.0")]
    let hdrs := if kuwoHostTest u.hostname
      then hdrs ++ [("Referer", "https://www.kuwo.cn/")] else hdrs
    let hdrs := if strTruthy range then hdrs ++ [("Range", range.getD "")] else hdrs
    .fetchUpstream u hdrs

/-- An upstream `Response` as the code consumes it. -/
structure UpstreamResponse where
  status : Nat
  statusText : String
  headers : List (String × String)
  body : String
deriving DecidableEq

/-- The `Response` the gateway hands back. -/
structure GatewayResponse where
  status : Nat
  statusText : String
  body : String
  headers : List (String × String)
deriving DecidableEq

/-- `new Response("Invalid target", \x7b status: 400 \x7d)` (line 68). -/
def invalidTargetResponse : GatewayResponse := ⟨400, "", "Invalid target", []⟩

/-- All of `proxyAudio` (lines 65–120) given the fetch outcome. There is no
`try`/`catch` around `await fetch` (line 87): a rejected fetch propagates. -/
def proxyAudioRun (parsedTarget : Option ParsedUrl) (ua range : Option String)
    (fetchResult : Except String UpstreamResponse) :
    Except String GatewayResponse :=
  match proxyAudioStep parsedTarget ua range with
  | .reject => .ok invalidTargetResponse
  | .fetchUpstream _ _ =>
    match fetchResult with
    | .error e => .error e
    | .ok up => .ok ⟨up.status, up.statusText, up.body,
        buildAudioResponseHeaders up.headers⟩

/-! ### Request Router (lines 203–220) -/

inductive Route where
  | options
  | methodNotAllowed
  | audio (target : String)
  | metadata
deriving DecidableEq

/-- `onRequest` dispatch (lines 203–220): `target` is
`url.searchParams.get("target")` and line 215 tests its JS truthiness. -/
def onRequestRoute (method : String) (target : Option String) : Route :=
  if method == "OPTIONS" then .options
  else if method != "GET" && method != "HEAD" then .methodNotAllowed
  else if strTruthy target then .audio (target.getD "")
  else .metadata

/-! ### Signature Generator (lines 122–141)

`generateAuth` calls WebCrypto HMAC with hash SHA-1, key `"token"`, message
`server + type + id`, then hex-encodes the digest bytes with
`b.toString(16).padStart(2, "0")`. The HMAC/SHA-1 primitive is implemented
here concretely: bytes are `Nat` below 256, words are `Nat` reduced mod
2^32. -/

/-- Reduce to a 32-bit word. -/
def w32 (n : Nat) : Nat := n % 4294967296

/-- Left rotation of a 32-bit word by `b` bits. -/
def rotl (b n : Nat) : Nat := (n * 2 ^ b + n / 2 ^ (32 - b)) % 4294967296

/-- UTF-8 bytes of a string (`TextEncoder.encode`). -/
def toBytes (s : String) : List Nat := s.toUTF8.toList.map UInt8.toNat

/-- Big-endian bytes of the 64-bit message bit length. -/
def lenBytes (ml : Nat) : List Nat :=
  [ml / 2 ^ 56 % 256, ml / 2 ^ 48 % 256, ml / 2 ^ 40 % 256, ml / 2 ^ 32 % 256,
   ml / 2 ^ 24 % 256, ml / 2 ^ 16 % 256, ml / 2 ^ 8 % 256, ml % 256]

/-- SHA-1 padding: append `0x80`, zero bytes to 56 mod 64, then the length. -/
def padMessage (msg : List Nat) : List Nat :=
  msg ++ [128] ++ List.replicate ((119 - msg.length % 64) % 64) 0 ++
    lenBytes (msg.length * 8)

/-- Group bytes into big-endian 32-bit words. -/
def bytesToWordsBE : List Nat → List Nat
  | a :: b :: c :: d :: rest =>
      (a * 16777216 + b * 65536 + c * 256 + d) :: bytesToWordsBE rest
  | _ => []

/-- Message-schedule extension, kept in reverse order (head = newest word):
`w[i] = rotl1 (w[i-3] xor w[i-8] xor w[i-14] xor w[i-16])`. -/
def extendWordsRev : Nat → List Nat → List Nat
  | 0, acc => acc
  | n + 1, acc =>
      extendWordsRev n
        (rotl 1 ((acc.getD 2 0) ^^^ (acc.getD 7 0) ^^^ (acc.getD 13 0) ^^^ (acc.getD 15 0)) :: acc)

/-- SHA-1 round function. -/
def sha1F (i b c d : Nat) : Nat :=
  if i < 20 then (b &&& c) ||| ((b ^^^ 4294967295) &&& d)
  else if i < 40 then b ^^^ c ^^^ d
  else if i < 60 then (b &&& c) ||| (b &&& d) ||| (c &&& d)
  else b ^^^ c ^^^ d

/-- SHA-1 round constants. -/
def sha1K (i : Nat) : Nat :=
  if i < 20 then 0x5A827999
  else if i < 40 then 0x6ED9EBA1
  else if i < 60 then 0x8F1BBCDC
  else 0xCA62C1D6

/-- The 80-round main loop over the extended schedule. -/
def sha1Loop : List Nat → Nat → Nat → Nat → Nat → Nat → Nat →
    Nat × Nat × Nat × Nat × Nat
  | [], _, a, b, c, d, e => (a, b, c, d, e)
  | w :: ws, i, a, b, c, d, e =>
      sha1Loop ws (i + 1) (w32 (rotl 5 a + sha1F i b c d + e + sha1K i + w))
        a (rotl 30 b) c d

/-- The five 32-bit state words of SHA-1. -/
structure Sha1State where
  h0 : Nat
  h1 : Nat
  h2 : Nat
  h3 : Nat
  h4 : Nat

def sha1Init : Sha1State :=
  ⟨0x67452301, 0xEFCDAB89, 0x98BADCFE, 0x10325476, 0xC3D2E1F0⟩

/-- Compression of one 64-byte chunk. -/
def sha1Compress (st : Sha1State) (chunk : List Nat) : Sha1State :=
  let ws := (extendWordsRev 64 (bytesToWordsBE chunk).reverse).reverse
  let r := sha1Loop ws 0 st.h0 st.h1 st.h2 st.h3 st.h4
  ⟨w32 (st.h0 + r.1), w32 (st.h1 + r.2.1), w32 (st.h2 + r.2.2.1),
   w32 (st.h3 + r.2.2.2.1), w32 (st.h4 + r.2.2.2.2)⟩

/-- Fold the compression over the 64-byte chunks of the padded message. -/
def sha1Chunks (st : Sha1State) (l : List Nat) : Sha1State :=
  if _h : l.length < 64 then st
  else sha1Chunks (sha1Compress st (l.take 64)) (l.drop 64)
termination_by l.length
decreasing_by simp only [List.length_drop]; omega

/-- Big-endian bytes of one state word. -/
def wordToBytesBE (w : Nat) : List Nat :=
  [w / 16777216 % 256, w / 65536 % 256, w / 256 % 256, w % 256]

/-- The 20-byte SHA-1 digest of a byte sequence. -/
def sha1Digest (msg : List Nat) : List Nat :=
  let st := sha1Chunks sha1Init (padMessage msg)
  wordToBytesBE st.h0 ++ wordToBytesBE st.h1 ++ wordToBytesBE st.h2 ++
    wordToBytesBE st.h3 ++ wordToBytesBE st.h4

/-- RFC 2104 HMAC-SHA-1 for a key of at most 64 bytes (the code's key
`"token"` has 5 bytes, so no key hashing step arises). -/
def hmacSha1 (key msg : List Nat) : List Nat :=
  let k0 := key ++ List.replicate (64 - key.length) 0
  sha1Digest ((k0.map (fun b => b ^^^ 92)) ++
    sha1Digest ((k0.map (fun b => b ^^^ 54)) ++ msg))

/-- The sixteen lowercase digit characters of `Number.prototype.toString(16)`. -/
def hexChars : List Char := "0123456789abcdef".data

def hexDigitChar (n : Nat) : Char := hexChars.getD n '0'

/-- `b.toString(16).padStart(2, "0")` for a byte `b < 256`. -/
def hexByte (b : Nat) : List Char := [hexDigitChar (b / 16), hexDigitChar (b % 16)]

/-- The `.map(...).join("")` hex encoding of the digest (lines 138–140). -/
def bytesToHex (bs : List Nat) : String := String.mk ((bs.map hexByte).flatten)

/-- `generateAuth` (lines 122–141): HMAC-SHA-1 with the fixed secret
`"token"` over the delimiter-free concatenation, hex-encoded lowercase. -/
def generateAuth (server typ id : String) : String :=
  bytesToHex (hmacSha1 (toBytes "token") (toBytes (server ++ typ ++ id)))

/-! ### Metadata Request Translator (lines 143–201) -/

/-- The metadata-mode query parameters the translator reads. -/
structure MetaQuery where
  types : Option String
  name : Option String
  id : Option String
  source : Option String
  auth : Option String
deriving DecidableEq

/-- Line 149: `url.searchParams.get("source") || "netease"`. -/
def sourceOf (q : MetaQuery) : String := orDefault q.source "netease"

/-- The `types → metingType` if-chain (lines 154–166); unmatched values
leave the empty string from line 151. -/
def metingTypeOf (q : MetaQuery) : String :=
  match q.types with
  | some "search" => "search"
  | some "url" => "url"
  | some "lyric" => "lrc"
  | some "pic" => "pic"
  | _ => ""

/-- The `metingId` selection of the same if-chain: `name || ""` for search,
`id || url.searchParams.get("id") || ""` for the other recognized types. -/
def metingIdOf (q : MetaQuery) : String :=
  match q.types with
  | some "search" => orDefault q.name ""
  | some "url" => orDefault q.id (orDefault q.id "")
  | some "lyric" => orDefault q.id (orDefault q.id "")
  | some "pic" => orDefault q.id (orDefault q.id "")
  | _ => ""

/-- The upstream query parameters set on `apiUrl` (lines 168–181), in `set`
order: `server`, `type`, `id`, then `auth` — the latter passed through when
the client-supplied value is truthy, else computed for `url`/`lrc`/`pic`. -/
def buildApiParams (q : MetaQuery) : List (String × String) :=
  let source := sourceOf q
  let metingType := metingTypeOf q
  let metingId := metingIdOf q
  if metingType != "" then
    [("server", source), ("type", metingType), ("id", metingId)] ++
      (if strTruthy q.auth then [("auth", q.auth.getD "")]
       else if ["url", "lrc", "pic"].contains metingType then
         [("auth", generateAuth source metingType metingId)]
       else [])
  else []

/-- The `apiUrl.toString()` passed to `fetch` (line 183). `URLSearchParams`
percent-encoding is not modelled; the claims inspect the parameter list and
the empty-query rendering, where none arises. -/
def apiUrlString (q : MetaQuery) : String :=
  let ps := buildApiParams q
  if ps.isEmpty then API_BASE_URL
  else API_BASE_URL ++ "?" ++
    String.intercalate "&" (ps.map (fun p => p.1 ++ "=" ++ p.2))

/-- `proxyApiRequest` after the fetch (lines 183–200): no `try`/`catch`, so
a rejected fetch propagates; otherwise filter headers through
`createCorsHeaders` and default `Content-Type`. -/
def proxyApiRun (fetchResult : Except String UpstreamResponse) :
    Except String GatewayResponse :=
  match fetchResult with
  | .error e => .error e
  | .ok up =>
    let headers := createCorsHeaders (some up.headers)
    let headers := if hhas headers "Content-Type" then headers
      else hset headers "Content-Type" "application/json; charset=utf-8"
    .ok ⟨up.status, up.statusText, up.body, headers⟩

/-! ### Helper lemmas: the headers model -/

theorem lower_cacheControl : lower "Cache-Control" = "cache-control" := by decide

theorem lower_acao :
    lower "Access-Control-Allow-Origin" = "access-control-allow-origin" := by decide

theorem lower_acam :
    lower "Access-Control-Allow-Methods" = "access-control-allow-methods" := by decide

theorem lower_aceh :
    lower "Access-Control-Expose-Headers" = "access-control-expose-headers" := by decide

theorem mem_hset {hs : List (String × String)} {k v : String} {p : String × String}
    (h : p ∈ hset hs k v) : p ∈ hs ∨ p = (lower k, v) := by
  simp only [hset, List.mem_append, List.mem_filter, List.mem_singleton] at h
  rcases h with h | h
  · exact Or.inl h.1
  · exact Or.inr h

theorem self_mem_hset (hs : List (String × String)) (k v : String) :
    (lower k, v) ∈ hset hs k v := by
  simp [hset]

theorem mem_hset_of_ne {hs : List (String × String)} {k v : String}
    {p : String × String} (hp : p ∈ hs) (hne : p.1 ≠ lower k) :
    p ∈ hset hs k v := by
  simp only [hset, List.mem_append, List.mem_filter]
  exact Or.inl ⟨hp, by simpa using hne⟩

theorem hhas_eq_false {hs : List (String × String)} {k : String}
    (h : ∀ p ∈ hs, p.1 ≠ lower k) : hhas hs k = false := by
  simp only [hhas, List.any_eq_false, beq_iff_eq]
  exact h

theorem mem_filterHeaders_aux (allow : List String)
    (entries : List (String × String)) :
    ∀ acc p, p ∈ entries.foldl (filterHeadersStep allow) acc →
      p ∈ acc ∨ ∃ kv ∈ entries, p = (lower kv.1, kv.2) ∧
        allow.contains (lower kv.1) = true := by
  induction entries with
  | nil => exact fun acc p h => Or.inl h
  | cons kv rest ih =>
    intro acc p h
    simp only [List.foldl_cons] at h
    rcases ih _ p h with h1 | ⟨kv1, hkv1, hp⟩
    · unfold filterHeadersStep at h1
      split at h1
      · rcases mem_hset h1 with h2 | h2
        · exact Or.inl h2
        · exact Or.inr ⟨kv, List.mem_cons_self kv rest, h2, by assumption⟩
      · exact Or.inl h1
    · exact Or.inr ⟨kv1, List.mem_cons_of_mem kv hkv1, hp⟩

theorem mem_filterHeaders {allow : List String} {entries : List (String × String)}
    {p : String × String} (h : p ∈ filterHeaders allow entries) :
    ∃ kv ∈ entries, p = (lower kv.1, kv.2) ∧
      allow.contains (lower kv.1) = true := by
  rcases mem_filterHeaders_aux allow entries [] p h with h1 | h1
  · simp at h1
  · exact h1

theorem key_mem_allow_of_mem_filterHeaders {allow : List String}
    {entries : List (String × String)} {p : String × String}
    (h : p ∈ filterHeaders allow entries) : p.1 ∈ allow := by
  rcases mem_filterHeaders h with ⟨kv, _, rfl, hc⟩
  exact List.mem_of_elem_eq_true hc

theorem mem_createCorsHeaders {entries : List (String × String)}
    {p : String × String} (h : p ∈ createCorsHeaders (some entries)) :
    p.1 ∈ SAFE_RESPONSE_HEADERS ∨ p.1 = "cache-control" ∨
      p.1 = "access-control-allow-origin" := by
  unfold createCorsHeaders at h
  rcases mem_hset h with h1 | rfl
  · split at h1
    · exact Or.inl (key_mem_allow_of_mem_filterHeaders h1)
    · rcases mem_hset h1 with h2 | rfl
      · exact Or.inl (key_mem_allow_of_mem_filterHeaders h2)
      · rw [lower_cacheControl]
        exact Or.inr (Or.inl rfl)
  · rw [lower_acao]
    exact Or.inr (Or.inr rfl)

theorem acao_mem_createCorsHeaders (entries : List (String × String)) :
    ("access-control-allow-origin", "*") ∈ createCorsHeaders (some entries) := by
  unfold createCorsHeaders
  exact lower_acao ▸ self_mem_hset _ _ _

theorem cacheControl_default_createCorsHeaders {entries : List (String × String)}
    (h : ∀ kv ∈ entries, lower kv.1 ≠ "cache-control") :
    ("cache-control", "no-store") ∈ createCorsHeaders (some entries) := by
  have hnone : ∀ p ∈ filterHeaders SAFE_RESPONSE_HEADERS entries,
      p.1 ≠ lower "Cache-Control" := by
    intro p hp
    rcases mem_filterHeaders hp with ⟨kv, hkv, rfl, _⟩
    rw [lower_cacheControl]
    exact h kv hkv
  unfold createCorsHeaders
  simp only [hhas_eq_false hnone, Bool.false_eq_true, if_false]
  refine mem_hset_of_ne ?_ (by rw [lower_acao]; decide)
  exact lower_cacheControl ▸ self_mem_hset _ _ _

theorem mem_buildAudioResponseHeaders {up : List (String × String)}
    {p : String × String} (h : p ∈ buildAudioResponseHeaders up) :
    p.1 ∈ audioAllowedHeaders ∨ p.1 = "access-control-allow-origin" ∨
      p.1 = "access-control-allow-methods" ∨
      p.1 = "access-control-expose-headers" := by
  unfold buildAudioResponseHeaders at h
  rcases mem_hset h with h1 | rfl
  · rcases mem_hset h1 with h2 | rfl
    · rcases mem_hset h2 with h3 | rfl
      · exact Or.inl (key_mem_allow_of_mem_filterHeaders h3)
      · rw [lower_acao]; exact Or.inr (Or.inl rfl)
    · rw [lower_acam]; exact Or.inr (Or.inr (Or.inl rfl))
  · rw [lower_aceh]; exact Or.inr (Or.inr (Or.inr rfl))

theorem acao_mem_buildAudioResponseHeaders (up : List (String × String)) :
    ("access-control-allow-origin", "*") ∈ buildAudioResponseHeaders up := by
  unfold buildAudioResponseHeaders
  refine mem_hset_of_ne (mem_hset_of_ne ?_ (by rw [lower_acam]; decide))
    (by rw [lower_aceh]; decide)
  exact lower_acao ▸ self_mem_hset _ _ _

/-- C8 counterexample: with an upstream that sent no `Cache-Control`, the
audio path's response headers contain no `Cache-Control` at all, while the
metadata path defaults it — so `Cache-Control` defaulting does not happen
"on both the metadata path and the audio path" as the claim states. -/
theorem claim8_counterexample :
    hhas (buildAudioResponseHeaders []) "Cache-Control" = false ∧
    hhas (createCorsHeaders (some [])) "Cache-Control" = true := by decide

/-- C8 (amended): on both paths the output contains only allow-listed
header names (case-insensitively matched) plus the injected CORS headers,
and always contains `Access-Control-Allow-Origin: *`; `Cache-Control` is
defaulted to `no-store` when absent on the metadata path only; and neither
path ever emits a non-allow-listed header such as a cookie or auth token. -/
theorem claim8_amended :
    (∀ entries p, p ∈ createCorsHeaders (some entries) →
      p.1 ∈ SAFE_RESPONSE_HEADERS ∨ p.1 = "cache-control" ∨
        p.1 = "access-control-allow-origin") ∧
    (∀ entries, ("access-control-allow-origin", "*") ∈
      createCorsHeaders (some entries)) ∧
    (∀ entries, (∀ kv ∈ entries, lower kv.1 ≠ "cache-control") →
      ("cache-control", "no-store") ∈ createCorsHeaders (some entries)) ∧
    (∀ up p, p ∈ buildAudioResponseHeaders up →
      p.1 ∈ audioAllowedHeaders ∨ p.1 = "access-control-allow-origin" ∨
        p.1 = "access-control-allow-methods" ∨
        p.1 = "access-control-expose-headers") ∧
    (∀ up, ("access-control-allow-origin", "*") ∈ buildAudioResponseHeaders up) ∧
    (∀ entries v, ("cookie", v) ∉ createCorsHeaders (some entries) ∧
      ("set-cookie", v) ∉ createCorsHeaders (some entries) ∧
      ("authorization", v) ∉ createCorsHeaders (some entries)) ∧
    (∀ up v, ("cookie", v) ∉ buildAudioResponseHeaders up ∧
      ("set-cookie", v) ∉ buildAudioResponseHeaders up ∧
      ("authorization", v) ∉ buildAudioResponseHeaders up) := by
  refine ⟨fun entries p h => mem_createCorsHeaders h,
    acao_mem_createCorsHeaders,
    fun entries h => cacheControl_default_createCorsHeaders h,
    fun up p h => mem_buildAudioResponseHeaders h,
    acao_mem_buildAudioResponseHeaders, ?_, ?_⟩
  · refine fun entries v => ⟨fun h => ?_, fun h => ?_, fun h => ?_⟩ <;>
      rcases mem_createCorsHeaders h with h1 | h1 | h1 <;>
      simp [SAFE_RESPONSE_HEADERS] at h1
  · refine fun up v => ⟨fun h => ?_, fun h => ?_, fun h => ?_⟩ <;>
      rcases mem_buildAudioResponseHeaders h with h1 | h1 | h1 | h1 <;>
      simp [audioAllowedHeaders] at h1

/-- C8 witness: the amended theorem applied at concrete header sets. -/
theorem claim8_witness :
    ("cache-control", "no-store") ∈
      createCorsHeaders (some [("Content-Type", "application/json"), ("X-Token", "s")]) ∧
    ("cookie", "sid=1") ∉ buildAudioResponseHeaders [("Cookie", "sid=1")] :=
  ⟨claim8_amended.2.2.1 [("Content-Type", "application/json"), ("X-Token", "s")]
      (by decide),
    (claim8_amended.2.2.2.2.2.2 [("Cookie", "sid=1")] "sid=1").1⟩

/-! ### Claims about the Audio Target Validator and Router -/

/-- C1 counterexample: the allow-list is NOT closed under the substring
attack the claim names — `notkugou.com.evil.net` contains `kugou.com` as a
substring, so `isAllowedAudioHost` accepts it and the validator returns the
URL instead of Rejected. -/
theorem claim1_counterexample :
    isAllowedAudioHost "notkugou.com.evil.net" = true ∧
    normalizeAudioUrl (some ⟨"http:", "notkugou.com.evil.net", "/track.mp3"⟩) =
      some ⟨"http:", "notkugou.com.evil.net", "/track.mp3"⟩ := by decide

/-- C1 (amended): every URL whose hostname fails the code's allow-list
check (the anchored `kuwo.cn` test, or substring containment of one of the
five platform domains) is Rejected, as is every malformed URL; a URL string
such as `http://evil.com/qq.com`, whose hostname is `evil.com`, is Rejected
— but hostnames that merely CONTAIN an allow-listed substring, such as
`notkugou.com.evil.net`, are accepted by the substring match. -/
theorem claim1_amended :
    (∀ p : ParsedUrl, isAllowedAudioHost p.hostname = false →
      normalizeAudioUrl (some p) = none) ∧
    normalizeAudioUrl none = none ∧
    isAllowedAudioHost "evil.com" = false ∧
    normalizeAudioUrl (some ⟨"http:", "evil.com", "/qq.com"⟩) = none := by
  refine ⟨fun p h => ?_, rfl, by decide, by decide⟩
  simp [normalizeAudioUrl, h]

/-- C1 witness: the amended theorem applied at a concrete disallowed host. -/
theorem claim1_witness :
    isAllowedAudioHost "example.com" = false ∧
    normalizeAudioUrl (some ⟨"http:", "example.com", "/a.mp3"⟩) = none :=
  ⟨by decide, claim1_amended.1 ⟨"http:", "example.com", "/a.mp3"⟩ (by decide)⟩

/-- C2: whenever the target is malformed (the URL constructor threw), has a
scheme other than http/https, or has a disallowed hostname, `proxyAudio`
decides Reject — status 400 with body `Invalid target` — and no upstream
fetch is performed, whatever the inbound headers and whatever a fetch would
have returned. -/
theorem claim2_invalid_target_rejected :
    ∀ (parsedTarget : Option ParsedUrl) (ua range : Option String)
      (fr : Except String UpstreamResponse),
    (parsedTarget = none ∨
      ∃ p, parsedTarget = some p ∧
        ((p.protocol ≠ "http:" ∧ p.protocol ≠ "https:") ∨
          isAllowedAudioHost p.hostname = false)) →
    proxyAudioStep parsedTarget ua range = .reject ∧
    proxyAudioRun parsedTarget ua range fr = .ok invalidTargetResponse := by
  intro pt ua range fr h
  have hnorm : normalizeAudioUrl pt = none := by
    rcases h with rfl | ⟨p, rfl, h⟩
    · rfl
    · rcases h with ⟨h1, h2⟩ | h
      · have hb : (p.protocol != "http:" && p.protocol != "https:") = true := by
          simp only [Bool.and_eq_true, bne_iff_ne, ne_eq]
          exact ⟨h1, h2⟩
        simp [normalizeAudioUrl, hb]
      · simp [normalizeAudioUrl, h]
  exact ⟨by simp [proxyAudioStep, hnorm],
    by simp [proxyAudioRun, proxyAudioStep, hnorm]⟩

/-- C2 witness: the spec's own example, a disallowed host over http. -/
theorem claim2_witness :
    proxyAudioStep (some ⟨"http:", "disallowed-host.example", "/file.mp3"⟩)
        none none = AudioStep.reject ∧
    proxyAudioRun (some ⟨"http:", "disallowed-host.example", "/file.mp3"⟩)
        none none (.ok ⟨200, "OK", [], "AUDIO"⟩) = .ok invalidTargetResponse :=
  claim2_invalid_target_rejected _ none none _
    (Or.inr ⟨_, rfl, Or.inr (by decide)⟩)

/-- C3 counterexample: a present-but-empty `target` is JS-falsy, so the
router sends the request to the Metadata Request Translator, not to the
Audio Proxy as the claim states. -/
theorem claim3_counterexample :
    onRequestRoute "GET" (some "") = Route.metadata ∧
    onRequestRoute "GET" (some "") ≠ Route.audio "" := by decide

/-- C3 (amended): for GET and HEAD requests the router dispatches to the
Audio Proxy exactly when `target` is present with a non-empty value; both an
absent `target` and a present empty-string `target` go to the Metadata
Request Translator. -/
theorem claim3_amended : ∀ (m t : String),
    (m = "GET" ∨ m = "HEAD") →
    (t ≠ "" → onRequestRoute m (some t) = .audio t) ∧
    onRequestRoute m (some "") = .metadata ∧
    onRequestRoute m none = .metadata := by
  intro m t hm
  rcases hm with rfl | rfl <;>
    exact ⟨fun ht => by simp [onRequestRoute, strTruthy, bne_iff_ne, ht],
      by decide, by decide⟩

/-- C3 witness: the amended theorem applied to a concrete GET request. -/
theorem claim3_witness :
    onRequestRoute "GET" (some "http://www.kuwo.cn/a.mp3") =
      Route.audio "http://www.kuwo.cn/a.mp3" :=
  (claim3_amended "GET" "http://www.kuwo.cn/a.mp3" (Or.inl rfl)).1 (by decide)

/-- C7: every target whose hostname matches the anchored kuwo pattern and
which passes validation comes back with scheme forced to `http:`. -/
theorem claim7_kuwo_forced_http : ∀ (p u : ParsedUrl),
    kuwoHostTest p.hostname = true →
    normalizeAudioUrl (some p) = some u →
    u.protocol = "http:" := by
  intro p u hk hn
  simp only [normalizeAudioUrl, hk, if_true] at hn
  split at hn
  · exact absurd hn (by simp)
  · split at hn
    · exact absurd hn (by simp)
    · cases hn
      rfl

/-- C7 witness: an https kuwo target is rewritten to http. -/
theorem claim7_witness :
    normalizeAudioUrl (some ⟨"https:", "www.kuwo.cn", "/song.mp3"⟩) =
      some ⟨"http:", "www.kuwo.cn", "/song.mp3"⟩ ∧
    (ParsedUrl.mk "http:" "www.kuwo.cn" "/song.mp3").protocol = "http:" :=
  ⟨by decide, claim7_kuwo_forced_http ⟨"https:", "www.kuwo.cn", "/song.mp3"⟩
    ⟨"http:", "www.kuwo.cn", "/song.mp3"⟩ (by decide) (by decide)⟩

/-- C9: neither `proxyAudio` nor `proxyApiRequest` wraps its `fetch` in a
`try`/`catch`, so a transport-level fetch failure propagates out of the
handler unhandled instead of being turned into a 502-class gateway
response: evaluated at a valid audio target (and on the metadata path), a
rejected fetch yields the propagated error and no `Response` at all. -/
theorem claim9_fetch_failure_propagates :
    proxyAudioRun (some ⟨"http:", "www.kuwo.cn", "/song.mp3"⟩) none none
        (.error "connection refused") = .error "connection refused" ∧
    proxyApiRun (.error "connection refused") = .error "connection refused" ∧
    ∀ r : GatewayResponse,
      proxyAudioRun (some ⟨"http:", "www.kuwo.cn", "/song.mp3"⟩) none none
        (.error "connection refused") ≠ .ok r := by
  have h1 : proxyAudioRun (some ⟨"http:", "www.kuwo.cn", "/song.mp3"⟩) none none
      (.error "connection refused") = .error "connection refused" := rfl
  exact ⟨h1, rfl, fun r hr => by rw [h1] at hr; exact Except.noConfusion hr⟩

/-! ### Claims about the Signature Generator -/

theorem mem_wordToBytesBE_lt {w b : Nat} (h : b ∈ wordToBytesBE w) : b < 256 := by
  simp only [wordToBytesBE, List.mem_cons, List.not_mem_nil, or_false] at h
  rcases h with rfl | rfl | rfl | rfl <;> omega

theorem length_sha1Digest (msg : List Nat) : (sha1Digest msg).length = 20 := by
  simp [sha1Digest, wordToBytesBE]

theorem mem_sha1Digest_lt {msg : List Nat} {b : Nat} (h : b ∈ sha1Digest msg) :
    b < 256 := by
  simp only [sha1Digest, List.mem_append] at h
  rcases h with (((h | h) | h) | h) | h <;> exact mem_wordToBytesBE_lt h

theorem hexDigitChar_mem (n : Nat) : hexDigitChar n ∈ hexChars := by
  unfold hexDigitChar
  by_cases h : n < 16
  · interval_cases n <;> decide
  · rw [List.getD_eq_default]
    · decide
    · rw [show hexChars.length = 16 from rfl]; omega

theorem mem_hexByte {b : Nat} {c : Char} (h : c ∈ hexByte b) : c ∈ hexChars := by
  simp only [hexByte, List.mem_cons, List.not_mem_nil, or_false] at h
  rcases h with rfl | rfl <;> exact hexDigitChar_mem _

theorem length_bytesToHex (bs : List Nat) : (bytesToHex bs).length = 2 * bs.length := by
  show ((bs.map hexByte).flatten).length = 2 * bs.length
  induction bs with
  | nil => rfl
  | cons b rest ih =>
    simp only [List.map_cons, List.flatten_cons, List.length_append, ih, hexByte,
      List.length_cons, List.length_nil, List.length_map]
    omega

theorem mem_bytesToHex {bs : List Nat} {c : Char}
    (h : c ∈ (bytesToHex bs).data) : c ∈ hexChars := by
  have h1 : c ∈ (bs.map hexByte).flatten := h
  rcases List.mem_flatten.mp h1 with ⟨l, hl, hc⟩
  rcases List.mem_map.mp hl with ⟨b, _, rfl⟩
  exact mem_hexByte hc

/-- C5: `generateAuth` is deterministic (a pure function of its three string
arguments), and its output is the hex encoding of the 20-byte HMAC-SHA-1
digest: exactly 40 characters, two zero-padded characters per digest byte
(each digest byte is below 256), all drawn from the lowercase hex digit
alphabet. -/
theorem claim5_sign_deterministic_hex : ∀ server typ id : String,
    generateAuth server typ id = generateAuth server typ id ∧
    (generateAuth server typ id).length = 40 ∧
    (hmacSha1 (toBytes "token") (toBytes (server ++ typ ++ id))).length = 20 ∧
    (∀ b ∈ hmacSha1 (toBytes "token") (toBytes (server ++ typ ++ id)),
      b < 256 ∧ (hexByte b).length = 2) ∧
    ∀ c ∈ (generateAuth server typ id).data, c ∈ hexChars := by
  intro server typ id
  have hlen : (hmacSha1 (toBytes "token") (toBytes (server ++ typ ++ id))).length = 20 :=
    length_sha1Digest _
  refine ⟨rfl, ?_, hlen, fun b hb => ⟨mem_sha1Digest_lt hb, rfl⟩,
    fun c hc => mem_bytesToHex hc⟩
  rw [generateAuth, length_bytesToHex, hlen]

/-- C5 witness: the theorem applied at the spec's example signature triple. -/
theorem claim5_witness : (generateAuth "netease" "url" "12345").length = 40 :=
  (claim5_sign_deterministic_hex "netease" "url" "12345").2.1

/-! ### Claims about the Metadata Request Translator -/

theorem orDefault_orDefault (o : Option String) :
    orDefault o (orDefault o "") = orDefault o "" := by
  rcases o with _ | s
  · rfl
  · by_cases h : s = "" <;> simp [orDefault, h]

theorem buildApiParams_eq (q : MetaQuery) (h : metingTypeOf q ≠ "") :
    buildApiParams q =
      [("server", sourceOf q), ("type", metingTypeOf q), ("id", metingIdOf q)] ++
        (if strTruthy q.auth then [("auth", q.auth.getD "")]
         else if ["url", "lrc", "pic"].contains (metingTypeOf q) then
           [("auth", generateAuth (sourceOf q) (metingTypeOf q) (metingIdOf q))]
         else []) := by
  simp only [buildApiParams]
  rw [if_pos (by simpa using h)]

theorem metingTypeOf_eq_empty {q : MetaQuery}
    (h : q.types ∉ ([some "search", some "url", some "lyric", some "pic"] :
      List (Option String))) :
    metingTypeOf q = "" := by
  simp only [metingTypeOf]
  split <;> simp_all

/-- C4: for a recognized `types` value, a truthy client-supplied `auth` is
forwarded verbatim as the upstream `auth` parameter; with no truthy client
`auth`, the upstream `auth` equals `generateAuth(source, mappedType,
selectedId)` when the mapped type is `url`, `lrc` or `pic`, and no `auth`
parameter is attached for `search`. -/
theorem claim4_auth_handling : ∀ q : MetaQuery,
    metingTypeOf q ≠ "" →
    (∀ a, q.auth = some a → a ≠ "" →
      getParam (buildApiParams q) "auth" = some a) ∧
    (strTruthy q.auth = false →
      (metingTypeOf q ∈ (["url", "lrc", "pic"] : List String) →
        getParam (buildApiParams q) "auth" =
          some (generateAuth (sourceOf q) (metingTypeOf q) (metingIdOf q))) ∧
      (metingTypeOf q = "search" →
        getParam (buildApiParams q) "auth" = none)) := by
  intro q hne
  constructor
  · intro a ha hae
    have hS : strTruthy q.auth = true := by
      rw [ha]; simpa [strTruthy] using hae
    rw [buildApiParams_eq q hne, hS, ha]
    rfl
  · intro hS
    rw [buildApiParams_eq q hne, hS]
    constructor
    · intro hmem
      simp only [List.mem_cons, List.mem_singleton, List.not_mem_nil, or_false] at hmem
      rcases hmem with hmt | hmt | hmt <;> rw [hmt] <;> rfl
    · intro hmt
      rw [hmt]
      rfl

/-- C4 witness: the theorem applied to the spec's two examples, pass-through
of `auth=deadbeef` and the unsigned `search` case. -/
theorem claim4_witness :
    getParam (buildApiParams ⟨some "url", none, some "12345", some "netease",
      some "deadbeef"⟩) "auth" = some "deadbeef" ∧
    getParam (buildApiParams ⟨some "search", some "Adele", none, none, none⟩)
      "auth" = none :=
  ⟨(claim4_auth_handling ⟨some "url", none, some "12345", some "netease",
      some "deadbeef"⟩ (by decide)).1 "deadbeef" rfl (by decide),
    ((claim4_auth_handling ⟨some "search", some "Adele", none, none, none⟩
      (by decide)).2 (by decide)).2 (by decide)⟩

/-- C6: the translator maps `types` by the fixed table search→search,
url→url, lyric→lrc, pic→pic; any other (or absent) value leaves the
upstream `type`/`id` unset; the upstream `id` is the `name` parameter for
search and the `id` parameter for the other recognized types, with missing
or empty values defaulting to the empty string; and the upstream `server`
defaults to `netease` when `source` is absent. -/
theorem claim6_translation : ∀ q : MetaQuery,
    (q.types = some "search" →
      getParam (buildApiParams q) "type" = some "search" ∧
      getParam (buildApiParams q) "id" = some (orDefault q.name "")) ∧
    (q.types = some "url" →
      getParam (buildApiParams q) "type" = some "url" ∧
      getParam (buildApiParams q) "id" = some (orDefault q.id "")) ∧
    (q.types = some "lyric" →
      getParam (buildApiParams q) "type" = some "lrc" ∧
      getParam (buildApiParams q) "id" = some (orDefault q.id "")) ∧
    (q.types = some "pic" →
      getParam (buildApiParams q) "type" = some "pic" ∧
      getParam (buildApiParams q) "id" = some (orDefault q.id "")) ∧
    (q.types ∉ ([some "search", some "url", some "lyric", some "pic"] :
        List (Option String)) →
      metingTypeOf q = "" ∧ getParam (buildApiParams q) "type" = none ∧
        getParam (buildApiParams q) "id" = none) ∧
    (q.source = none → metingTypeOf q ≠ "" →
      getParam (buildApiParams q) "server" = some "netease") := by
  intro q
  refine ⟨fun ht => ?_, fun ht => ?_, fun ht => ?_, fun ht => ?_,
    fun ht => ?_, fun hs hne => ?_⟩
  · have hmt : metingTypeOf q = "search" := by simp [metingTypeOf, ht]
    have hmi : metingIdOf q = orDefault q.name "" := by simp [metingIdOf, ht]
    rw [buildApiParams_eq q (by simp [hmt]), hmt, hmi]
    exact ⟨rfl, rfl⟩
  · have hmt : metingTypeOf q = "url" := by simp [metingTypeOf, ht]
    have hmi : metingIdOf q = orDefault q.id "" := by
      simp only [metingIdOf, ht]; exact orDefault_orDefault q.id
    rw [buildApiParams_eq q (by simp [hmt]), hmt, hmi]
    exact ⟨rfl, rfl⟩
  · have hmt : metingTypeOf q = "lrc" := by simp [metingTypeOf, ht]
    have hmi : metingIdOf q = orDefault q.id "" := by
      simp only [metingIdOf, ht]; exact orDefault_orDefault q.id
    rw [buildApiParams_eq q (by simp [hmt]), hmt, hmi]
    exact ⟨rfl, rfl⟩
  · have hmt : metingTypeOf q = "pic" := by simp [metingTypeOf, ht]
    have hmi : metingIdOf q = orDefault q.id "" := by
      simp only [metingIdOf, ht]; exact orDefault_orDefault q.id
    rw [buildApiParams_eq q (by simp [hmt]), hmt, hmi]
    exact ⟨rfl, rfl⟩
  · have hmt : metingTypeOf q = "" := metingTypeOf_eq_empty ht
    have hempty : buildApiParams q = [] := by simp [buildApiParams, hmt]
    exact ⟨hmt, by rw [hempty]; rfl, by rw [hempty]; rfl⟩
  · rw [buildApiParams_eq q hne]
    show some (sourceOf q) = some "netease"
    rw [sourceOf, hs]
    rfl

/-- C6 witness: the theorem applied to the spec's search example. -/
theorem claim6_witness :
    getParam (buildApiParams ⟨some "search", some "Adele", none, none, none⟩)
      "type" = some "search" ∧
    getParam (buildApiParams ⟨some "search", some "Adele", none, none, none⟩)
      "id" = some "Adele" :=
  (claim6_translation ⟨some "search", some "Adele", none, none, none⟩).1 rfl

/-- C10: for an absent or unrecognized `types` value, the upstream request
URL is exactly the fixed base API URL with an empty query string: no
`server`, `type`, `id` or `auth` parameter is attached, even when the
client supplied `source` or `auth`. -/
theorem claim10_unrecognized_types : ∀ q : MetaQuery,
    q.types ∉ ([some "search", some "url", some "lyric", some "pic"] :
      List (Option String)) →
    buildApiParams q = [] ∧ apiUrlString q = API_BASE_URL := by
  intro q h
  have hempty : buildApiParams q = [] := by
    simp [buildApiParams, metingTypeOf_eq_empty h]
  exact ⟨hempty, by simp [apiUrlString, hempty]⟩

/-- C10 witness: an unrecognized `types=album` with client-supplied `source`
and `auth` still yields the bare base URL. -/
theorem claim10_witness :
    buildApiParams ⟨some "album", none, some "1", some "kugou", some "deadbeef"⟩ = [] ∧
    apiUrlString ⟨some "album", none, some "1", some "kugou", some "deadbeef"⟩ =
      API_BASE_URL :=
  claim10_unrecognized_types
    ⟨some "album", none, some "1", some "kugou", some "deadbeef"⟩ (by decide)

end MusicProxy

open MusicProxy in
example : isAllowedAudioHost "notkugou.com.evil.net" = true := by decide
open MusicProxy in
example : isAllowedAudioHost "evil.com" = false := by decide
open MusicProxy in
example : normalizeAudioUrl (some ⟨"https:", "www.kuwo.cn", "/a.mp3"⟩) =
    some ⟨"http:", "www.kuwo.cn", "/a.mp3"⟩ := by decide
open MusicProxy in
example : onRequestRoute "GET" (some "") = Route.metadata := by decide
open MusicProxy in
example : buildAudioResponseHeaders [("Set-Cookie", "x"), ("Content-Type", "audio/mpeg")] =
    [("content-type", "audio/mpeg"), ("access-control-allow-origin", "*"),
     ("access-control-allow-methods", "GET, HEAD, OPTIONS"),
     ("access-control-expose-headers", "Content-Range, Content-Length, Accept-Ranges")] := by decide
open MusicProxy in
example : createCorsHeaders (some [("X-Auth", "t"), ("ETag", "e")]) =
    [("etag", "e"), ("cache-control", "no-store"), ("access-control-allow-origin", "*")] := by decide
